import Mathlib

/-!
# serde_cst — verification of the CST voice-file decoder

Shallow embedding of the decoding core of the `serde_cst` crate
(`src/de.rs`, `src/voice.rs`, `src/error.rs`, `src/header.rs`) in Lean 4,
followed by theorems settling the frozen claims about its specification.

Modelling conventions:
* Bytes are `Nat` values (each byte of a real input is `< 256`; the
  definitions do not depend on that bound, mirroring how the Rust code
  never re-checks it either).
* The deserializer state is the remaining input slice plus the cached
  byteswap flag, exactly as in `Deserializer { input, byteswapped }`.
* Fallible operations return `DeResult`, with a dedicated `panic`
  outcome for the places where the Rust code can panic (slice-index
  out of bounds, arithmetic underflow, `todo!()`), distinguished from
  the `Err(Error)` return path.
* `f32` values are represented by their 4-byte little-endian bit
  pattern as a `Nat`: the code only ever moves the 4 raw bytes via
  `f32::from_le_bytes`, and no claim depends on float arithmetic.
* Rust `&str` results of `parse_str` are represented by the list of
  their UTF-8 bytes (the code returns the validated byte slice
  reinterpreted as `&str` without copying).
-/

/-- The error enum of `src/error.rs` (`Error`). `&'static str` / `String`
payloads become `String`; `Utf8Error` and `ParseIntError` payloads carry no
information the decoder inspects, so they are elided. -/
inductive DeError where
  | Eof
  | InvalidHeader
  | ExpectedSize (a b : Nat)
  | ExpectedBool
  | NotUtf8
  | ParseInt
  | WrongLength (n : Nat)
  | FieldNotFound (s : String)
  | TrailingBytes
  | Message (s : String)
deriving DecidableEq

/-- `serde::de::Error::invalid_length(n, &exp)` routed through
`Error::custom`, producing `Error::Message` with serde's standard
formatting (the `exp` argument is the calling visitor's `expecting`
text). -/
def invalid_length (n : Nat) (exp : String) : DeError :=
  .Message ("invalid length " ++ toString n ++ ", expected " ++ exp)

/-- `serde::de::Error::duplicate_field(name)` routed through
`Error::custom`. -/
def duplicate_field (name : String) : DeError :=
  .Message ("duplicate field `" ++ name ++ "`")

/-- The deserializer state of `src/de.rs`:
`Deserializer { input: &'de [u8], byteswapped: Option<bool> }`.
The borrowed slice is modelled by the list of remaining bytes. -/
structure Deserializer where
  input : List Nat
  byteswapped : Option Bool
deriving DecidableEq

/-- Outcome of one decoding step: success with a value and the new
deserializer state, an `Err(Error)` return, or a Rust panic. -/
inductive DeResult (α : Type) where
  | ok (a : α) (d : Deserializer)
  | err (e : DeError)
  | panic
deriving DecidableEq

/-- Sequencing of fallible steps; `?` propagation in the Rust source.
Panics also propagate (they abort the whole program). -/
def DeResult.bind {α β : Type} : DeResult α → (α → Deserializer → DeResult β) → DeResult β
  | .ok a d, f => f a d
  | .err e, _ => .err e
  | .panic, _ => .panic

/-- The value carried by a successful outcome, if any. -/
def DeResult.valueOf {α : Type} : DeResult α → Option α
  | .ok a _ => some a
  | _ => none

/-- Little-endian interpretation of a byte list:
`from_le_bytes` for the given width. -/
def leN : List Nat → Nat
  | [] => 0
  | b :: r => b + 256 * leN r

/-- The 4-byte little-endian value `b0 + 256*b1 + 256^2*b2 + 256^3*b3`. -/
def le4 (b0 b1 b2 b3 : Nat) : Nat :=
  b0 + 256 * (b1 + 256 * (b2 + 256 * b3))

/-- Little-endian 4-byte encoding of `n` (inverse of `le4` below `2^32`);
used to build concrete inputs. -/
def enc4 (n : Nat) : List Nat :=
  [n % 256, n / 256 % 256, n / 65536 % 256, n / 16777216 % 256]

/-- Reinterpret an unsigned 32-bit value as `i32`
(`i32::from_le_bytes` composed with the unsigned reading). -/
def toI32 (n : Nat) : Int :=
  if n < 2 ^ 31 then (n : Int) else (n : Int) - 2 ^ 32

/-- UTF-8 bytes of an ASCII string literal (builds test inputs). -/
def ascii (s : String) : List Nat :=
  s.toList.map Char.toNat

/-- `CST_FLITE_HEADER`: the fixed magic signature string. -/
def CST_FLITE_HEADER : String := "CMU_FLITE_CG_VOXDATA-v2.0"

/-- `CST_LITTLE_ENDIAN_BYTE_VALUE`. -/
def CST_LITTLE_ENDIAN_BYTE_VALUE : Nat := 1

/-- The signature as bytes (pure ASCII, 25 bytes). -/
def headerBytes : List Nat := ascii CST_FLITE_HEADER

/-- `Deserializer::get_size_of_next`: take the next 4 bytes
(`Err(Eof)` if fewer remain), interpret them little-endian, advance. -/
def get_size_of_next (d : Deserializer) : DeResult Nat :=
  match d.input with
  | b0 :: b1 :: b2 :: b3 :: rest => .ok (le4 b0 b1 b2 b3) ⟨rest, d.byteswapped⟩
  | _ => .err .Eof

/-- `Deserializer::validate_header`: a no-op once `byteswapped` is set;
otherwise requires the signature prefix (`Err(InvalidHeader)` if absent),
skips signature plus one separator byte (the Rust slice
`&input[len+1..]` panics when the input is exactly the 25-byte
signature), reads the 4-byte marker and caches
`byteswapped = (marker != 1)`. The separator byte's value is never
inspected. -/
def validate_header (d : Deserializer) : DeResult Unit :=
  match d.byteswapped with
  | some _ => .ok () d
  | none =>
    if headerBytes.isPrefixOf d.input then
      if d.input.length < headerBytes.length + 1 then .panic
      else
        (get_size_of_next ⟨d.input.drop (headerBytes.length + 1), none⟩).bind
          fun v d2 => .ok () ⟨d2.input, some (v != CST_LITTLE_ENDIAN_BYTE_VALUE)⟩
    else .err .InvalidHeader

/-- Validity of a byte list as UTF-8 (`core::str::from_utf8`): ASCII,
2-byte leads `C2..DF`, 3-byte leads `E0..EF` (with the `E0`/`ED`
overlong/surrogate restrictions), 4-byte leads `F0..F4` (with the
`F0`/`F4` range restrictions), continuation bytes `80..BF`. -/
def utf8Cont (c : Nat) : Bool := 0x80 ≤ c && c ≤ 0xBF

/-- Allowed first continuation byte after a 3-byte lead `b`. -/
def utf8Cont3 (b c : Nat) : Bool :=
  if b = 0xE0 then 0xA0 ≤ c && c ≤ 0xBF
  else if b = 0xED then 0x80 ≤ c && c ≤ 0x9F
  else utf8Cont c

/-- Allowed first continuation byte after a 4-byte lead `b`. -/
def utf8Cont4 (b c : Nat) : Bool :=
  if b = 0xF0 then 0x90 ≤ c && c ≤ 0xBF
  else if b = 0xF4 then 0x80 ≤ c && c ≤ 0x8F
  else utf8Cont c

/-- UTF-8 validity of a whole byte list. -/
def utf8Valid : List Nat → Bool
  | [] => true
  | b :: rest =>
    if b < 0x80 then utf8Valid rest
    else if b < 0xC2 then false
    else if b ≤ 0xDF then
      match rest with
      | c1 :: r => utf8Cont c1 && utf8Valid r
      | [] => false
    else if b ≤ 0xEF then
      match rest with
      | c1 :: c2 :: r => utf8Cont3 b c1 && utf8Cont c2 && utf8Valid r
      | _ => false
    else if b ≤ 0xF4 then
      match rest with
      | c1 :: c2 :: c3 :: r => utf8Cont4 b c1 && utf8Cont c2 && utf8Cont c3 && utf8Valid r
      | _ => false
    else false

/-- `Deserializer::parse_str`: validate the header, read the 4-byte
count `size`, take the next `size` bytes (`Err(Eof)` if fewer remain);
the Rust index `bytes[size - 1]` panics when `size = 0`; a nonzero last
byte is `Err(WrongLength(size))`; the first `size - 1` bytes must be
UTF-8 (`Err(NotUtf8)` otherwise) and are returned, the slice advancing
by `size`. -/
def parse_str (d : Deserializer) : DeResult (List Nat) :=
  (validate_header d).bind fun _ d1 =>
  (get_size_of_next d1).bind fun size d2 =>
  if d2.input.length < size then .err .Eof
  else
    let bytes := d2.input.take size
    if size = 0 then .panic
    else if bytes.getD (size - 1) 0 != 0 then .err (.WrongLength size)
    else if utf8Valid (bytes.take (size - 1)) then
      .ok (bytes.take (size - 1)) ⟨d2.input.drop size, d2.byteswapped⟩
    else .err .NotUtf8

/-- `Deserializer::read_bytes::<N, M>`: asserts `N >= M` (a panic if
violated), takes `N` bytes (`Err(Eof)` if fewer remain), returns the
first `M` of them, advances by `N`. -/
def read_bytes (n m : Nat) (d : Deserializer) : DeResult (List Nat) :=
  if n < m then .panic
  else if d.input.length < n then .err .Eof
  else .ok ((d.input.take n).take m) ⟨d.input.drop n, d.byteswapped⟩

/-- `deserialize_u8`: `u8::from_le_bytes(read_bytes::<4, 1>()?)`. -/
def deserialize_u8 (d : Deserializer) : DeResult Nat :=
  (read_bytes 4 1 d).bind fun bs d1 => .ok (leN bs) d1

/-- `deserialize_u16`: `u16::from_le_bytes(read_bytes::<4, 2>()?)`. -/
def deserialize_u16 (d : Deserializer) : DeResult Nat :=
  (read_bytes 4 2 d).bind fun bs d1 => .ok (leN bs) d1

/-- `deserialize_u32`: `u32::from_le_bytes(read_bytes::<4, 4>()?)`. -/
def deserialize_u32 (d : Deserializer) : DeResult Nat :=
  (read_bytes 4 4 d).bind fun bs d1 => .ok (leN bs) d1

/-- `deserialize_i32`: `i32::from_le_bytes(read_bytes::<4, 4>()?)`. -/
def deserialize_i32 (d : Deserializer) : DeResult Int :=
  (read_bytes 4 4 d).bind fun bs d1 => .ok (toI32 (leN bs)) d1

/-- `deserialize_f32`: `f32::from_le_bytes(read_bytes::<4, 4>()?)`;
the float is represented by its little-endian bit pattern. -/
def deserialize_f32 (d : Deserializer) : DeResult Nat :=
  (read_bytes 4 4 d).bind fun bs d1 => .ok (leN bs) d1

/-- `deserialize_u128` in `src/de.rs` is `todo!("u128")`: it panics
unconditionally, for every input. -/
def deserialize_u128 (_ : Deserializer) : DeResult Nat :=
  .panic

/-- `Deserializer::parse_bool_unchecked_header` preceded by
`validate_header` (`Deserializer::parse_bool`): reads the 4-byte count,
requires it to be exactly 1 (`Err(ExpectedSize(size, 1))` otherwise),
requires 2 further bytes (data byte plus null terminator), returns
whether the data byte is nonzero. -/
def parse_bool (d : Deserializer) : DeResult Bool :=
  (validate_header d).bind fun _ d1 =>
  (get_size_of_next d1).bind fun size d2 =>
  if size != 1 then .err (.ExpectedSize size 1)
  else
    match d2.input with
    | b :: _ :: rest => .ok (b != 0) ⟨rest, d2.byteswapped⟩
    | _ => .err .Eof

/-!
## Sequence machinery (`SeqValues`, `FixedSeqValuesVisitor`) and the
voice-file types (`src/voice.rs`)

`deserialize_seq` calls `validate_header` and hands the visitor a
`SeqValues { len: None, idx: 0 }`; `SeqValues::next_element_seed`
lazily reads the 4-byte element count on the first call, yields `None`
once `idx` reaches the count, and otherwise decodes one element.
The composed decoders below inline this protocol for each concrete
visitor, with the lazy count read placed exactly where the first
`next_element` call happens.
-/

/-- Decode exactly `n` consecutive elements with `elem`
(the successful `next_element` calls of a `SeqValues` iteration). -/
def decodeN {α : Type} (elem : Deserializer → DeResult α) :
    Nat → Deserializer → DeResult (List α)
  | 0, d => .ok [] d
  | n + 1, d =>
    (elem d).bind fun a d1 =>
    (decodeN elem n d1).bind fun as d2 => .ok (a :: as) d2

/-- `Vec<T>` deserialization: `deserialize_seq` (which first calls
`validate_header`) with serde's sequence visitor, which calls
`next_element` until `None`. The first call reads the inline 4-byte
count (also when the count is 0), then exactly that many elements are
decoded. -/
def decodeVec {α : Type} (elem : Deserializer → DeResult α)
    (d : Deserializer) : DeResult (List α) :=
  (validate_header d).bind fun _ d1 =>
  (get_size_of_next d1).bind fun len d2 =>
  decodeN elem len d2

/-- `FixedSeqValuesVisitor::expecting`. -/
def fixedSeqExpecting (len : Nat) : String :=
  "A fixed vector of length " ++ toString len

/-- `FixedLengthSeq<T>` deserialization (`FixedSeqValuesVisitor`,
seeded with an externally supplied length): `deserialize_seq` calls
`validate_header`, then the visitor runs `for i in 0..len` demanding an
element each time. With `len = 0` no `next_element` call happens, so no
inline count is read; with `len > 0` the first call reads the stream's
inline count `L`, and the loop fails with serde's `invalid_length(L)`
as soon as the stream count runs out before `len` elements were
produced. Elements beyond `len` that the stream count would allow are
left unconsumed. -/
def decodeFixedSeq {α : Type} (elem : Deserializer → DeResult α)
    (len : Nat) (d : Deserializer) : DeResult (List α) :=
  (validate_header d).bind fun _ d1 =>
  if len = 0 then .ok [] d1
  else
    (get_size_of_next d1).bind fun streamLen d2 =>
    if len ≤ streamLen then decodeN elem len d2
    else
      (decodeN elem streamLen d2).bind fun _ _ =>
        .err (invalid_length streamLen (fixedSeqExpecting len))

/-- `CstVal` (`src/voice.rs`): a tagged union read from the stream.
Variant payloads follow the Rust enum; the `Float` payload is the f32
bit pattern, the `Str` payload the string's bytes. -/
inductive CstVal where
  | Cons (v : Int)
  | IntV (v : Int)
  | FloatV (bits : Nat)
  | StrV (s : List Nat)
  | FirstFree (v : Int)
  | Other (v : Int)
deriving DecidableEq

/-- `CstValVisitor::expecting` (verbatim, typos included). -/
def cstValExpecting : String :=
  "A CstVal consisting of a singe byte, which determintes the type that follows"

/-- `CstVal` deserialization: `deserialize_seq(CstValVisitor)`. The
sequence path first runs `validate_header`, then the visitor's first
`next_element` lazily reads the inline 4-byte count; a count of 0
yields serde's `invalid_length(0)`. The discriminant is read as a raw
i32; each arm then demands one payload element, which fails with
`invalid_length(1)` when the inline count was 1. Tags 0, 1 and 7 read
an i32, tag 3 an f32, tag 5 a length-prefixed string, and every other
tag an i32 classified `Other`. -/
def deserialize_CstVal (d : Deserializer) : DeResult CstVal :=
  (validate_header d).bind fun _ d1 =>
  (get_size_of_next d1).bind fun len d2 =>
  if len = 0 then .err (invalid_length 0 cstValExpecting)
  else
    (deserialize_i32 d2).bind fun discrim d3 =>
    if discrim = 0 then
      if len = 1 then .err (invalid_length 1 cstValExpecting)
      else (deserialize_i32 d3).bind fun v d4 => .ok (.Cons v) d4
    else if discrim = 1 then
      if len = 1 then .err (invalid_length 1 cstValExpecting)
      else (deserialize_i32 d3).bind fun v d4 => .ok (.IntV v) d4
    else if discrim = 3 then
      if len = 1 then .err (invalid_length 1 cstValExpecting)
      else (deserialize_f32 d3).bind fun v d4 => .ok (.FloatV v) d4
    else if discrim = 5 then
      if len = 1 then .err (invalid_length 1 cstValExpecting)
      else (parse_str d3).bind fun s d4 => .ok (.StrV s) d4
    else if discrim = 7 then
      if len = 1 then .err (invalid_length 1 cstValExpecting)
      else (deserialize_i32 d3).bind fun v d4 => .ok (.FirstFree v) d4
    else
      if len = 1 then .err (invalid_length 1 cstValExpecting)
      else (deserialize_i32 d3).bind fun v d4 => .ok (.Other v) d4

/-- `TreeNode` (`src/voice.rs`): tuple struct `(u8, u8, u16, CstVal)`. -/
structure TreeNode where
  feat : Nat
  op : Nat
  tree_no : Nat
  value : CstVal
deriving DecidableEq

/-- `TreeNode` deserialization: derived 4-tuple struct, so
`deserialize_tuple(4)` — a `SeqValues` with a fixed length and hence no
inline count; the four elements are decoded positionally. -/
def decodeTreeNode (d : Deserializer) : DeResult TreeNode :=
  (deserialize_u8 d).bind fun feat d1 =>
  (deserialize_u8 d1).bind fun op d2 =>
  (deserialize_u16 d2).bind fun tn d3 =>
  (deserialize_CstVal d3).bind fun v d4 =>
  .ok ⟨feat, op, tn, v⟩ d4

/-- `TreeFeatures` (`src/voice.rs`): newtype over `Vec<String>`, so a
transparent `deserialize_newtype_struct` into a dynamic string
sequence. -/
def decodeTreeFeatures (d : Deserializer) : DeResult (List (List Nat)) :=
  decodeVec parse_str d

/-- `Tree` (`src/voice.rs`): tuple struct `(TreeNode, TreeFeatures)`
(named `CstTree` here only because Mathlib already claims `Tree`). -/
structure CstTree where
  node : TreeNode
  features : List (List Nat)
deriving DecidableEq

/-- `Tree` deserialization: derived 2-tuple struct, positional, no
inline count. -/
def decodeTree (d : Deserializer) : DeResult CstTree :=
  (decodeTreeNode d).bind fun n d1 =>
  (decodeTreeFeatures d1).bind fun f d2 =>
  .ok ⟨n, f⟩ d2

/-- `F0Tree` (`src/voice.rs`): newtype over `Vec<Tree>`. -/
abbrev F0Tree := List CstTree

/-- `F0Tree` deserialization: transparent newtype over a dynamic
sequence, so it reads its own inline 4-byte count followed by that many
`Tree` values. -/
def decodeF0Tree (d : Deserializer) : DeResult F0Tree :=
  decodeVec decodeTree d

/-- `Gender` (`src/gender.rs`). -/
inductive Gender where
  | Male
  | Female
  | Unknown
deriving DecidableEq

set_option linter.dupNamespace false

/-- `EndOfFeatures` (`src/header.rs`). -/
inductive EndOfFeatures where
  | EndOfFeatures
deriving DecidableEq

/-- `Features` (`src/header.rs`). Strings are byte lists; the
`text-u32` fields (deserialized through `serde_with::DisplayFromStr`)
are `Nat`. `build_date` is kept as its decoded text — the
`crate::date` conversion helper (`src/date.rs`) is outside the
provided sources, and no claim touches it: `BodyVisitor` reads only
`num_f0_models` from this record. -/
structure Features where
  language : List Nat
  country : List Nat
  variant : List Nat
  age : Nat
  gender : Gender
  build_date : List Nat
  description : List Nat
  eng_shared : Nat
  copyright : List Nat
  num_dur_models : Nat
  num_param_models : Nat
  model_shape : Nat
  num_f0_models : Nat
  end_of_features : EndOfFeatures
deriving DecidableEq

/-- `Header` (`src/header.rs`): the already-decoded features plus the
voice name. -/
structure Header where
  features : Features
  name : List Nat
deriving DecidableEq

/-- `Body` (`src/voice.rs`). Floats are bit patterns. -/
structure Body where
  db_types : List (List Nat)
  num_types : Int
  sample_rate : Int
  f0_mean : Nat
  f0_stddev : Nat
  f0_trees : List F0Tree
deriving DecidableEq

/-- `Body` deserialization seeded with a decoded `Header`
(`BodyDeserializer` / `BodyVisitor::visit_seq`):
`deserialize_tuple(6, BodyVisitor)` — a fixed-length `SeqValues`, so no
leading validate call and no inline count for the tuple itself. The six
elements are `db_types` (dynamic string sequence), two raw i32 fields,
two raw f32 fields, and finally `f0_trees`, decoded through
`FixedLengthSeq::from_len(header.features.num_f0_models)` — the loop
count comes from the seed header, not from the stream. -/
def decodeBody (h : Header) (d : Deserializer) : DeResult Body :=
  (decodeVec parse_str d).bind fun dbt d1 =>
  (deserialize_i32 d1).bind fun nt d2 =>
  (deserialize_i32 d2).bind fun sr d3 =>
  (deserialize_f32 d3).bind fun fm d4 =>
  (deserialize_f32 d4).bind fun fs d5 =>
  (decodeFixedSeq decodeF0Tree h.features.num_f0_models d5).bind fun ft d6 =>
  .ok ⟨dbt, nt, sr, fm, fs, ft⟩ d6

/-!
## Record (struct) decoding

`deserialize_struct` hands the visitor a
`StructValues { fields, idx: 0 }` whose `MapAccess::next_key_seed`
yields exactly `fields.len()` keys, each read as an identifier string
via `parse_str`, and whose `next_value_seed` decodes the following
value; the stream's field name is never compared against
`fields[idx]`, and `Error::FieldNotFound` is constructed nowhere in the
crate. The caller's derived visitor therefore assigns values by the
name actually read: a known name fills its slot (a second occurrence is
serde's `duplicate_field` error, checked before the value is read), and
an unknown name is ignored by the field identifier and its value
requested as `IgnoredAny`, which lands in `deserialize_any` — a `todo!()`
panic in this crate. `decodeRecord2` composes these pieces for a record
of two string fields named `f1` and `f2` (the convention exercised by
the crate's own `test_struct`). -/
def decodeRecord2 (f1 f2 : String) (d : Deserializer) :
    DeResult (List Nat × List Nat) :=
  (parse_str d).bind fun k1 d1 =>
  if k1 = ascii f1 then
    (parse_str d1).bind fun v1 d2 =>
    (parse_str d2).bind fun k2 d3 =>
    if k2 = ascii f1 then .err (duplicate_field f1)
    else if k2 = ascii f2 then
      (parse_str d3).bind fun v2 d4 => .ok (v1, v2) d4
    else .panic
  else if k1 = ascii f2 then
    (parse_str d1).bind fun v2 d2 =>
    (parse_str d2).bind fun k2 d3 =>
    if k2 = ascii f2 then .err (duplicate_field f2)
    else if k2 = ascii f1 then
      (parse_str d3).bind fun v1 d4 => .ok (v1, v2) d4
    else .panic
  else .panic

/-- Wire form of one string field: count (content length plus the null
terminator), content bytes, terminator. Builds concrete inputs. -/
def strField (s : List Nat) : List Nat :=
  enc4 (s.length + 1) ++ s ++ [0]

/-!
## Helper lemmas
-/

/-- Once the byteswap flag is cached, `validate_header` returns
successfully without touching the state. -/
theorem validate_header_noop (d : Deserializer) (b : Bool)
    (h : d.byteswapped = some b) : validate_header d = .ok () d := by
  simp [validate_header, h]

/-- `validate_header_noop` specialized to a literal state, convenient
for rewriting. -/
theorem validate_header_some (inp : List Nat) (b : Bool) :
    validate_header ⟨inp, some b⟩ = .ok () ⟨inp, some b⟩ :=
  validate_header_noop ⟨inp, some b⟩ b rfl

/-- Round trip of the little-endian 4-byte encoding below `2^32`. -/
theorem le4_enc (n : Nat) (h : n < 2 ^ 32) :
    le4 (n % 256) (n / 256 % 256) (n / 65536 % 256) (n / 16777216 % 256) = n := by
  unfold le4
  omega

/-- `get_size_of_next` on an encoded count. -/
theorem get_size_of_next_enc (n : Nat) (rest : List Nat) (bs : Option Bool)
    (h : n < 2 ^ 32) :
    get_size_of_next ⟨enc4 n ++ rest, bs⟩ = .ok n ⟨rest, bs⟩ := by
  have : get_size_of_next ⟨enc4 n ++ rest, bs⟩ =
      .ok (le4 (n % 256) (n / 256 % 256) (n / 65536 % 256) (n / 16777216 % 256))
        ⟨rest, bs⟩ := rfl
  rw [this, le4_enc n h]

/-- `deserialize_i32` on an encoded 32-bit value. -/
theorem deserialize_i32_enc (n : Nat) (rest : List Nat) (bs : Option Bool)
    (h : n < 2 ^ 32) :
    deserialize_i32 ⟨enc4 n ++ rest, bs⟩ = .ok (toI32 n) ⟨rest, bs⟩ := by
  have : deserialize_i32 ⟨enc4 n ++ rest, bs⟩ =
      .ok (toI32 (le4 (n % 256) (n / 256 % 256) (n / 65536 % 256) (n / 16777216 % 256)))
        ⟨rest, bs⟩ := rfl
  rw [this, le4_enc n h]

/-- `deserialize_u32` on an encoded 32-bit value. -/
theorem deserialize_u32_enc (n : Nat) (rest : List Nat) (bs : Option Bool)
    (h : n < 2 ^ 32) :
    deserialize_u32 ⟨enc4 n ++ rest, bs⟩ = .ok n ⟨rest, bs⟩ := by
  have : deserialize_u32 ⟨enc4 n ++ rest, bs⟩ =
      .ok (le4 (n % 256) (n / 256 % 256) (n / 65536 % 256) (n / 16777216 % 256))
        ⟨rest, bs⟩ := rfl
  rw [this, le4_enc n h]

/-- `deserialize_f32` on an encoded 32-bit pattern. -/
theorem deserialize_f32_enc (n : Nat) (rest : List Nat) (bs : Option Bool)
    (h : n < 2 ^ 32) :
    deserialize_f32 ⟨enc4 n ++ rest, bs⟩ = .ok n ⟨rest, bs⟩ := by
  have : deserialize_f32 ⟨enc4 n ++ rest, bs⟩ =
      .ok (le4 (n % 256) (n / 256 % 256) (n / 65536 % 256) (n / 16777216 % 256))
        ⟨rest, bs⟩ := rfl
  rw [this, le4_enc n h]

/-- Full case analysis of `parse_str` on a well-delimited field in an
already-validated state: count `L`, then exactly the `L` bytes of `s`.
The three cases are the termination failure, the success (consuming the
count plus `L` bytes and returning the content without its
terminator), and the UTF-8 failure. -/
theorem parse_str_spec (bsw : Bool) (L : Nat) (s rest : List Nat)
    (hL : 1 ≤ L) (hlen : s.length = L) (hc : L < 2 ^ 32) :
    (s.getD (L - 1) 0 ≠ 0 →
      parse_str ⟨enc4 L ++ (s ++ rest), some bsw⟩ = .err (.WrongLength L)) ∧
    (s.getD (L - 1) 0 = 0 → utf8Valid (s.take (L - 1)) = true →
      parse_str ⟨enc4 L ++ (s ++ rest), some bsw⟩ =
        .ok (s.take (L - 1)) ⟨rest, some bsw⟩) ∧
    (s.getD (L - 1) 0 = 0 → utf8Valid (s.take (L - 1)) = false →
      parse_str ⟨enc4 L ++ (s ++ rest), some bsw⟩ = .err .NotUtf8) := by
  have hval : validate_header ⟨enc4 L ++ (s ++ rest), some bsw⟩ =
      .ok () ⟨enc4 L ++ (s ++ rest), some bsw⟩ := validate_header_noop _ bsw rfl
  have htake : (s ++ rest).take L = s := by
    rw [← hlen]
    exact List.take_left s rest
  have hdrop : (s ++ rest).drop L = rest := by
    rw [← hlen]
    exact List.drop_left s rest
  have hnlt : ¬ (s ++ rest).length < L := by
    rw [List.length_append, hlen]
    omega
  refine ⟨?_, ?_, ?_⟩
  · intro hlast
    simp only [parse_str, hval, DeResult.bind, get_size_of_next_enc L (s ++ rest) (some bsw) hc]
    rw [if_neg hnlt, if_neg (by omega : ¬ L = 0), htake, if_pos (by simpa using hlast)]
  · intro hlast hutf
    simp only [parse_str, hval, DeResult.bind, get_size_of_next_enc L (s ++ rest) (some bsw) hc]
    rw [if_neg hnlt, if_neg (by omega : ¬ L = 0), htake, if_neg (by simpa using hlast),
      if_pos hutf, hdrop]
  · intro hlast hutf
    simp only [parse_str, hval, DeResult.bind, get_size_of_next_enc L (s ++ rest) (some bsw) hc]
    rw [if_neg hnlt, if_neg (by omega : ¬ L = 0), htake, if_neg (by simpa using hlast)]
    rw [if_neg (by simp [hutf])]

/-- `parse_str` success on a well-formed string field. -/
theorem parse_str_ok (bsw : Bool) (s rest : List Nat)
    (hutf : utf8Valid s = true) (hc : s.length + 1 < 2 ^ 32) :
    parse_str ⟨enc4 (s.length + 1) ++ (s ++ [0] ++ rest), some bsw⟩ =
      .ok s ⟨rest, some bsw⟩ := by
  have hlast : ((s ++ [0]).getD (s.length + 1 - 1) 0) = 0 := by
    simp
  have htake : (s ++ [0]).take (s.length + 1 - 1) = s := by
    simp
  have h := (parse_str_spec bsw (s.length + 1) (s ++ [0]) rest (by omega)
    (by simp) hc).2.1 hlast (by rw [htake]; exact hutf)
  rw [htake] at h
  simpa [List.append_assoc] using h

-- sanity examples over the crate's own test inputs
example :
    parse_str ⟨ascii "CMU_FLITE_CG_VOXDATA-v2.0" ++ [0] ++ enc4 1 ++ enc4 9 ++
      ascii "language" ++ [0], none⟩ =
      .ok (ascii "language") ⟨[], some false⟩ := by decide

example :
    parse_bool ⟨ascii "CMU_FLITE_CG_VOXDATA-v2.0" ++ [0] ++ enc4 1 ++ enc4 1 ++
      [9, 0], none⟩ = .ok true ⟨[], some false⟩ := by decide

/-!
## Claims
-/

/-- C1, counterexample. The byteswap flag cached as `true` (endianness
marker was not 1) is claimed to byte-swap raw numeric reads; but on the
slot `[0, 0, 0, 1]` the unsigned 32-bit read returns the little-endian
value `2^24`, not the swapped value `1`. -/
theorem c1_counterexample :
    deserialize_u32 ⟨[0, 0, 0, 1], some true⟩ = .ok 16777216 ⟨[], some true⟩ := by
  decide

/-- C1, amended. Raw-binary numeric reads never consult the cached
byteswap flag: the value produced is identical under both flag states,
and whenever 4 bytes are available it is the little-endian
interpretation of the slot (truncated to the logical width). -/
theorem c1_raw_reads_ignore_byteswap_flag (b0 b1 b2 b3 : Nat)
    (rest inp : List Nat) (b b' : Bool) :
    ((deserialize_i32 ⟨inp, some b⟩).valueOf = (deserialize_i32 ⟨inp, some b'⟩).valueOf ∧
     (deserialize_u8 ⟨inp, some b⟩).valueOf = (deserialize_u8 ⟨inp, some b'⟩).valueOf ∧
     (deserialize_u16 ⟨inp, some b⟩).valueOf = (deserialize_u16 ⟨inp, some b'⟩).valueOf ∧
     (deserialize_u32 ⟨inp, some b⟩).valueOf = (deserialize_u32 ⟨inp, some b'⟩).valueOf ∧
     (deserialize_f32 ⟨inp, some b⟩).valueOf = (deserialize_f32 ⟨inp, some b'⟩).valueOf) ∧
    (deserialize_i32 ⟨b0 :: b1 :: b2 :: b3 :: rest, some b⟩ =
        .ok (toI32 (le4 b0 b1 b2 b3)) ⟨rest, some b⟩ ∧
     deserialize_u8 ⟨b0 :: b1 :: b2 :: b3 :: rest, some b⟩ = .ok b0 ⟨rest, some b⟩ ∧
     deserialize_u16 ⟨b0 :: b1 :: b2 :: b3 :: rest, some b⟩ =
        .ok (b0 + 256 * b1) ⟨rest, some b⟩ ∧
     deserialize_u32 ⟨b0 :: b1 :: b2 :: b3 :: rest, some b⟩ =
        .ok (le4 b0 b1 b2 b3) ⟨rest, some b⟩ ∧
     deserialize_f32 ⟨b0 :: b1 :: b2 :: b3 :: rest, some b⟩ =
        .ok (le4 b0 b1 b2 b3) ⟨rest, some b⟩) := by
  constructor
  · by_cases h4 : inp.length < 4 <;>
      simp [deserialize_i32, deserialize_u8, deserialize_u16, deserialize_u32,
        deserialize_f32, read_bytes, DeResult.bind, DeResult.valueOf, h4]
  · exact ⟨rfl, rfl, rfl, rfl, rfl⟩

/-- C5, counterexample. The byte after the 25-byte signature is claimed
to be required to be `0x00`; but with separator byte `7` the first
`validate()` still succeeds, skipping the byte unchecked and caching
the flag from the following marker. -/
theorem c5_counterexample :
    validate_header ⟨headerBytes ++ [7] ++ enc4 1, none⟩ =
      .ok () ⟨[], some false⟩ := by
  decide

/-- C5, amended. The first `validate()` fails with `InvalidHeader`
unless the buffer starts with the fixed 25-byte signature; on success
it skips the signature plus one separator byte whose value is never
checked, reads the next 4-byte count, and caches
`byteswap = (value != 1)`. -/
theorem c5_validate_skips_separator (sep c : Nat) (rest inp : List Nat)
    (hc : c < 2 ^ 32) :
    (validate_header ⟨headerBytes ++ sep :: (enc4 c ++ rest), none⟩ =
      .ok () ⟨rest, some (c != 1)⟩) ∧
    (headerBytes.isPrefixOf inp = false →
      validate_header ⟨inp, none⟩ = .err .InvalidHeader) := by
  constructor
  · have hpre : headerBytes.isPrefixOf (headerBytes ++ sep :: (enc4 c ++ rest)) = true := by
      rw [List.isPrefixOf_iff_prefix]
      exact List.prefix_append _ _
    have hlen : ¬ (headerBytes ++ sep :: (enc4 c ++ rest)).length < headerBytes.length + 1 := by
      simp
    have hdrop : (headerBytes ++ sep :: (enc4 c ++ rest)).drop (headerBytes.length + 1) =
        enc4 c ++ rest := by
      rw [show headerBytes.length + 1 = (headerBytes ++ [sep]).length by simp,
        show headerBytes ++ sep :: (enc4 c ++ rest) = (headerBytes ++ [sep]) ++ (enc4 c ++ rest) by simp]
      exact List.drop_left _ _
    simp only [validate_header, hpre, if_true, if_neg hlen, hdrop,
      get_size_of_next_enc c rest none hc, DeResult.bind, CST_LITTLE_ENDIAN_BYTE_VALUE]
  · intro hnp
    simp [validate_header, hnp]

/-- C5 witness: a non-zero separator byte still validates (flag cached
from the marker 5, i.e. swapped), and a non-matching prefix fails. -/
theorem c5_validate_skips_separator_witness :
    validate_header ⟨headerBytes ++ 7 :: (enc4 5 ++ []), none⟩ =
      .ok () ⟨[], some true⟩ ∧
    validate_header ⟨[0, 1, 2], none⟩ = .err .InvalidHeader :=
  ⟨(c5_validate_skips_separator 7 5 [] [0, 1, 2] (by decide)).1,
   (c5_validate_skips_separator 7 5 [] [0, 1, 2] (by decide)).2 (by decide)⟩

/-- C7, confirmed. Every raw-binary numeric read goes through
`read_bytes::<4, M>`, consuming exactly a 4-byte slot and truncating it
to the first `M` bytes: the u8 read returns the first byte, the u16
read the first two bytes little-endian, and the i32/u32/f32 reads the
whole slot little-endian; all advance the input by exactly 4 bytes. -/
theorem c7_raw_reads_consume_fixed_four_byte_slot (b0 b1 b2 b3 : Nat)
    (rest : List Nat) (bs : Option Bool) :
    read_bytes 4 1 ⟨b0 :: b1 :: b2 :: b3 :: rest, bs⟩ = .ok [b0] ⟨rest, bs⟩ ∧
    read_bytes 4 2 ⟨b0 :: b1 :: b2 :: b3 :: rest, bs⟩ = .ok [b0, b1] ⟨rest, bs⟩ ∧
    read_bytes 4 4 ⟨b0 :: b1 :: b2 :: b3 :: rest, bs⟩ =
      .ok [b0, b1, b2, b3] ⟨rest, bs⟩ ∧
    deserialize_u8 ⟨b0 :: b1 :: b2 :: b3 :: rest, bs⟩ = .ok b0 ⟨rest, bs⟩ ∧
    deserialize_u16 ⟨b0 :: b1 :: b2 :: b3 :: rest, bs⟩ =
      .ok (b0 + 256 * b1) ⟨rest, bs⟩ ∧
    deserialize_u32 ⟨b0 :: b1 :: b2 :: b3 :: rest, bs⟩ =
      .ok (le4 b0 b1 b2 b3) ⟨rest, bs⟩ ∧
    deserialize_i32 ⟨b0 :: b1 :: b2 :: b3 :: rest, bs⟩ =
      .ok (toI32 (le4 b0 b1 b2 b3)) ⟨rest, bs⟩ ∧
    deserialize_f32 ⟨b0 :: b1 :: b2 :: b3 :: rest, bs⟩ =
      .ok (le4 b0 b1 b2 b3) ⟨rest, bs⟩ :=
  ⟨rfl, rfl, rfl, rfl, rfl, rfl, rfl, rfl⟩

/-- C8. `deserialize_u128` is `todo!("u128")` in the source: requesting
an unsigned 128-bit decode panics unconditionally. In particular the
well-formed string field carrying the 39 ASCII digits of `u128::MAX`
does not decode to that value — the call panics before reading any
input. -/
theorem c8_u128_todo_panics :
    deserialize_u128
      ⟨enc4 40 ++ ascii "340282366920938463463374607431768211455" ++ [0],
        some false⟩ = .panic := rfl

/-- C9, confirmed. `validate()` is idempotent per `Deserializer`: any
successful call leaves the byteswap flag set, and calling
`validate_header` again on the resulting state returns success with
that exact state — no input is consumed and the flag is unchanged. -/
theorem c9_validate_idempotent (d d' : Deserializer)
    (h : validate_header d = .ok () d') :
    validate_header d' = .ok () d' ∧ d'.byteswapped.isSome := by
  cases hb : d.byteswapped with
  | some b =>
    rw [validate_header_noop d b hb] at h
    have hd : d = d' := by injection h
    subst hd
    exact ⟨validate_header_noop d b hb, by rw [hb]; rfl⟩
  | none =>
    unfold validate_header at h
    rw [hb] at h
    by_cases hp : headerBytes.isPrefixOf d.input
    · rw [if_pos hp] at h
      by_cases hl : d.input.length < headerBytes.length + 1
      · rw [if_pos hl] at h
        exact DeResult.noConfusion h
      · rw [if_neg hl] at h
        cases hg : get_size_of_next ⟨d.input.drop (headerBytes.length + 1), none⟩ with
        | ok v d2 =>
          rw [hg] at h
          simp only [DeResult.bind] at h
          have hd : (⟨d2.input, some (v != CST_LITTLE_ENDIAN_BYTE_VALUE)⟩ : Deserializer) = d' := by
            injection h
          rw [← hd]
          exact ⟨validate_header_noop _ _ rfl, rfl⟩
        | err e =>
          rw [hg] at h
          exact DeResult.noConfusion h
        | panic =>
          rw [hg] at h
          exact DeResult.noConfusion h
    · rw [if_neg hp] at h
      exact DeResult.noConfusion h

/-- C9 witness: a fresh decoder over a well-formed header validates to
the state `⟨[], some false⟩`, and validating again is a no-op. -/
theorem c9_validate_idempotent_witness :
    validate_header ⟨[], some false⟩ = .ok () ⟨[], some false⟩ :=
  (c9_validate_idempotent ⟨headerBytes ++ [0] ++ enc4 1, none⟩ ⟨[], some false⟩
    (by decide)).1

/-- C10, confirmed. A string field whose 4-byte count is 0 drives the
Rust index `bytes[size - 1]` out of bounds: `parse_str` panics instead
of returning an error; and in a validated state with a readable count
of at least 1 it never panics. -/
theorem c10_parse_str_zero_count_panics :
    (∀ (rest : List Nat) (b : Bool),
      parse_str ⟨enc4 0 ++ rest, some b⟩ = .panic) ∧
    (∀ (inp : List Nat) (b : Bool),
      1 ≤ le4 (inp.getD 0 0) (inp.getD 1 0) (inp.getD 2 0) (inp.getD 3 0) →
      parse_str ⟨inp, some b⟩ ≠ .panic) := by
  constructor
  · intro rest b
    have hval := validate_header_noop ⟨enc4 0 ++ rest, some b⟩ b rfl
    simp only [parse_str, hval, DeResult.bind,
      get_size_of_next_enc 0 rest (some b) (by norm_num)]
    rw [if_neg (by omega : ¬ rest.length < 0)]
    simp
  · intro inp b h
    rcases inp with _ | ⟨b0, _ | ⟨b1, _ | ⟨b2, _ | ⟨b3, rest⟩⟩⟩⟩ <;>
      simp only [parse_str, validate_header, get_size_of_next, DeResult.bind]
    · simp
    · simp
    · simp
    · simp
    · simp only [List.getD_cons_zero, List.getD_cons_succ] at h
      split_ifs with h1 h2 h3 h4 <;> simp
      exact absurd h2 (by omega)

/-- C10 witness: the zero-count field panics at a concrete input, and a
count of 1 does not. -/
theorem c10_parse_str_zero_count_panics_witness :
    parse_str ⟨[0, 0, 0, 0], some false⟩ = .panic ∧
    parse_str ⟨[1, 0, 0, 0, 0], some false⟩ ≠ .panic :=
  ⟨c10_parse_str_zero_count_panics.1 [] false,
   c10_parse_str_zero_count_panics.2 [1, 0, 0, 0, 0] false (by decide)⟩

/-- `decodeN` at zero: no element is decoded. -/
theorem decodeN_zero {α : Type} (elem : Deserializer → DeResult α)
    (d : Deserializer) : decodeN elem 0 d = .ok [] d := rfl

/-- `decodeN` unfolding at a successor. -/
theorem decodeN_succ {α : Type} (elem : Deserializer → DeResult α)
    (n : Nat) (d : Deserializer) :
    decodeN elem (n + 1) d =
      (elem d).bind fun a d1 =>
      (decodeN elem n d1).bind fun as d2 => .ok (a :: as) d2 := rfl

/-- A concrete `Features` record with the given `num_f0_models`
(remaining fields as in the crate's `test_file` fixture). -/
def exampleFeatures (n : Nat) : Features :=
  ⟨ascii "eng", ascii "USA", ascii "none", 30, .Unknown, ascii "unknown",
    ascii "unknown", 0, ascii "unknown", 3, 3, 3, n, .EndOfFeatures⟩

/-- A concrete `Header` seed with the given `num_f0_models`. -/
def exampleHeader (n : Nat) : Header :=
  ⟨exampleFeatures n, ascii "cmu_us_slt"⟩

/-- C2, counterexample. With `num_f0_models = 1` and the trees region
holding exactly one F0Tree encoding (its own inline count 0) but no
outer count, the claim predicts a successful decode of one F0Tree; the
code instead consumes those 4 bytes as an outer stream count (here 0)
and fails with serde's `invalid_length` because the stream count is
below the header-derived loop count. -/
theorem c2_counterexample :
    decodeBody (exampleHeader 1)
      ⟨enc4 0 ++ enc4 5 ++ enc4 7 ++ enc4 9 ++ enc4 11 ++ enc4 0, some false⟩ =
      .err (invalid_length 0 (fixedSeqExpecting 1)) := by
  decide

/-- C2, amended. `f0_trees` loops exactly
`header.features.num_f0_models` times, the loop count taken from the
seed header: with the count 0 the result is the empty array and zero
additional bytes are consumed (the final state is exactly the state
after `f0_stddev`); with the count 3 — and unlike the claim — the code
first consumes a 4-byte inline count from the stream, which must be at
least 3, and then decodes exactly 3 F0Tree values; each F0Tree itself
reads its own inline element count. -/
theorem c2_f0_trees_loop_count_from_header
    (h : Header) (bsw : Bool) (d d1 d2 d3 d4 d5 : Deserializer)
    (dbt : List (List Nat)) (n1 n2 : Int) (f1 f2 : Nat)
    (h1 : decodeVec parse_str d = .ok dbt d1)
    (h2 : deserialize_i32 d1 = .ok n1 d2)
    (h3 : deserialize_i32 d2 = .ok n2 d3)
    (h4 : deserialize_f32 d3 = .ok f1 d4)
    (h5 : deserialize_f32 d4 = .ok f2 d5)
    (hbs : d5.byteswapped = some bsw) :
    (h.features.num_f0_models = 0 →
      decodeBody h d = .ok ⟨dbt, n1, n2, f1, f2, []⟩ d5) ∧
    (∀ (L : Nat) (d6 e1 e2 e3 : Deserializer) (t1 t2 t3 : F0Tree),
      h.features.num_f0_models = 3 →
      get_size_of_next d5 = .ok L d6 →
      3 ≤ L →
      decodeF0Tree d6 = .ok t1 e1 →
      decodeF0Tree e1 = .ok t2 e2 →
      decodeF0Tree e2 = .ok t3 e3 →
      decodeBody h d = .ok ⟨dbt, n1, n2, f1, f2, [t1, t2, t3]⟩ e3) ∧
    (∀ (k : Nat) (r : List Nat) (b : Bool), k < 2 ^ 32 →
      decodeF0Tree ⟨enc4 k ++ r, some b⟩ = decodeN decodeTree k ⟨r, some b⟩) := by
  refine ⟨?_, ?_, ?_⟩
  · intro h0
    simp [decodeBody, h1, h2, h3, h4, h5, h0, DeResult.bind, decodeFixedSeq,
      validate_header_noop d5 bsw hbs]
  · intro L d6 e1 e2 e3 t1 t2 t3 h0 hL h3L ht1 ht2 ht3
    have hN : decodeN decodeF0Tree 3 d6 = .ok [t1, t2, t3] e3 := by
      rw [show (3 : Nat) = 2 + 1 from rfl, decodeN_succ, ht1]
      simp only [DeResult.bind]
      rw [show (2 : Nat) = 1 + 1 from rfl, decodeN_succ, ht2]
      simp only [DeResult.bind]
      rw [show (1 : Nat) = 0 + 1 from rfl, decodeN_succ, ht3]
      simp only [DeResult.bind, decodeN_zero]
    simp [decodeBody, h1, h2, h3, h4, h5, h0, DeResult.bind, decodeFixedSeq,
      validate_header_noop d5 bsw hbs, hL, if_pos h3L, hN]
  · intro k r b hk
    simp only [decodeF0Tree, decodeVec, validate_header_some,
      DeResult.bind, get_size_of_next_enc k r (some b) hk]

/-- C2 witness: with `num_f0_models = 3` and a trees region holding an
outer count of 3 followed by three empty F0Trees, the body decodes to
exactly three F0Tree values. -/
theorem c2_f0_trees_loop_count_from_header_witness :
    decodeBody (exampleHeader 3)
      ⟨[0, 0, 0, 0, 5, 0, 0, 0, 7, 0, 0, 0, 9, 0, 0, 0, 11, 0, 0, 0,
        3, 0, 0, 0, 0, 0, 0, 0, 0, 0, 0, 0, 0, 0, 0, 0], some false⟩ =
      .ok ⟨[], 5, 7, 9, 11, [[], [], []]⟩ ⟨[], some false⟩ :=
  (c2_f0_trees_loop_count_from_header (exampleHeader 3) false
    ⟨[0, 0, 0, 0, 5, 0, 0, 0, 7, 0, 0, 0, 9, 0, 0, 0, 11, 0, 0, 0,
      3, 0, 0, 0, 0, 0, 0, 0, 0, 0, 0, 0, 0, 0, 0, 0], some false⟩
    ⟨[5, 0, 0, 0, 7, 0, 0, 0, 9, 0, 0, 0, 11, 0, 0, 0,
      3, 0, 0, 0, 0, 0, 0, 0, 0, 0, 0, 0, 0, 0, 0, 0], some false⟩
    ⟨[7, 0, 0, 0, 9, 0, 0, 0, 11, 0, 0, 0,
      3, 0, 0, 0, 0, 0, 0, 0, 0, 0, 0, 0, 0, 0, 0, 0], some false⟩
    ⟨[9, 0, 0, 0, 11, 0, 0, 0,
      3, 0, 0, 0, 0, 0, 0, 0, 0, 0, 0, 0, 0, 0, 0, 0], some false⟩
    ⟨[11, 0, 0, 0, 3, 0, 0, 0, 0, 0, 0, 0, 0, 0, 0, 0, 0, 0, 0, 0], some false⟩
    ⟨[3, 0, 0, 0, 0, 0, 0, 0, 0, 0, 0, 0, 0, 0, 0, 0], some false⟩
    [] 5 7 9 11
    (by decide) (by decide) (by decide) (by decide) (by decide) rfl).2.1
    3
    ⟨[0, 0, 0, 0, 0, 0, 0, 0, 0, 0, 0, 0], some false⟩
    ⟨[0, 0, 0, 0, 0, 0, 0, 0], some false⟩
    ⟨[0, 0, 0, 0], some false⟩
    ⟨[], some false⟩
    [] [] []
    rfl (by decide) (by decide) (by decide) (by decide) (by decide)

/-- C3, counterexample. The two declared fields arrive in the stream in
the opposite order of the declaration; the claim predicts an
`UnexpectedFieldName` failure at the first field, yet the decode
succeeds, with each value assigned to the field actually named. -/
theorem c3_counterexample :
    decodeRecord2 "language" "country"
      ⟨strField (ascii "country") ++ strField (ascii "USA") ++
        strField (ascii "language") ++ strField (ascii "eng"), some false⟩ =
      .ok (ascii "eng", ascii "USA") ⟨[], some false⟩ := by
  decide

/-- C3, amended. The decoder reads one name string and one value per
declared field but never compares the name against the declared name at
that position (and `Error::FieldNotFound` is constructed nowhere in the
crate): two known field names arriving in swapped order decode
successfully, each value assigned by the name actually read. -/
theorem c3_no_field_name_check (f1 f2 : String) (d d1 d2 d3 d4 : Deserializer)
    (v1 v2 : List Nat)
    (hne : ascii f1 ≠ ascii f2)
    (k1 : parse_str d = .ok (ascii f2) d1)
    (w1 : parse_str d1 = .ok v2 d2)
    (k2 : parse_str d2 = .ok (ascii f1) d3)
    (w2 : parse_str d3 = .ok v1 d4) :
    decodeRecord2 f1 f2 d = .ok (v1, v2) d4 := by
  simp only [decodeRecord2, k1, DeResult.bind, eq_false (Ne.symm hne),
    eq_false hne, eq_self_iff_true, if_true, if_false, w1, k2, w2]

/-- C3 witness: the `age`/`gender` pair of the crate's header schema,
streamed in swapped order, decodes successfully. -/
theorem c3_no_field_name_check_witness :
    decodeRecord2 "age" "gender"
      ⟨strField (ascii "gender") ++ strField (ascii "male") ++
        strField (ascii "age") ++ strField (ascii "30"), some false⟩ =
      .ok (ascii "30", ascii "male") ⟨[], some false⟩ :=
  c3_no_field_name_check "age" "gender"
    ⟨strField (ascii "gender") ++ strField (ascii "male") ++
      strField (ascii "age") ++ strField (ascii "30"), some false⟩
    ⟨strField (ascii "male") ++ strField (ascii "age") ++ strField (ascii "30"),
      some false⟩
    ⟨strField (ascii "age") ++ strField (ascii "30"), some false⟩
    ⟨strField (ascii "30"), some false⟩
    ⟨[], some false⟩
    (ascii "30") (ascii "male")
    (by decide) (by decide) (by decide) (by decide) (by decide)

/-- C4, counterexample. A stream holding exactly a raw i32 tag 1
followed by a raw i32 payload 42 — which under the claim decodes to
`Int(42)` with the discriminant read first — instead has its first
4 bytes consumed as the sequence count (1), reads 42 as the
discriminant, and fails demanding a payload the count does not admit. -/
theorem c4_counterexample :
    deserialize_CstVal ⟨enc4 1 ++ enc4 42, some false⟩ =
      .err (invalid_length 1 cstValExpecting) := by
  decide

/-- C4, amended. Decoding one `CstVal` first consumes a 4-byte inline
sequence count (which must admit at least two elements), then one
raw-binary i32 discriminant, then exactly one payload selected by the
tag: tags 0/1/7 read a raw i32 (`Cons`/`Int`/`FirstFree`), tag 3 a raw
f32 (`Float`), tag 5 a length-prefixed string (`Str`), and any
unrecognized tag still consumes exactly one raw i32 payload, classified
`Other`. -/
theorem c4_cstval_count_then_tag_then_payload (bsw : Bool) (c t v : Nat)
    (rest : List Nat) (hc2 : 2 ≤ c) (hc : c < 2 ^ 32) (ht : t < 2 ^ 31)
    (hv : v < 2 ^ 32) :
    (t = 0 → deserialize_CstVal ⟨enc4 c ++ (enc4 t ++ (enc4 v ++ rest)), some bsw⟩ =
      .ok (.Cons (toI32 v)) ⟨rest, some bsw⟩) ∧
    (t = 1 → deserialize_CstVal ⟨enc4 c ++ (enc4 t ++ (enc4 v ++ rest)), some bsw⟩ =
      .ok (.IntV (toI32 v)) ⟨rest, some bsw⟩) ∧
    (t = 3 → deserialize_CstVal ⟨enc4 c ++ (enc4 t ++ (enc4 v ++ rest)), some bsw⟩ =
      .ok (.FloatV v) ⟨rest, some bsw⟩) ∧
    (t = 7 → deserialize_CstVal ⟨enc4 c ++ (enc4 t ++ (enc4 v ++ rest)), some bsw⟩ =
      .ok (.FirstFree (toI32 v)) ⟨rest, some bsw⟩) ∧
    (t ≠ 0 → t ≠ 1 → t ≠ 3 → t ≠ 5 → t ≠ 7 →
      deserialize_CstVal ⟨enc4 c ++ (enc4 t ++ (enc4 v ++ rest)), some bsw⟩ =
        .ok (.Other (toI32 v)) ⟨rest, some bsw⟩) ∧
    (∀ (s rest2 : List Nat), utf8Valid s = true → s.length + 1 < 2 ^ 32 →
      deserialize_CstVal
          ⟨enc4 c ++ (enc4 5 ++ (enc4 (s.length + 1) ++ (s ++ [0] ++ rest2))),
            some bsw⟩ =
        .ok (.StrV s) ⟨rest2, some bsw⟩) := by
  have hc0 : ¬ c = 0 := by omega
  have hc1 : ¬ c = 1 := by omega
  refine ⟨?_, ?_, ?_, ?_, ?_, ?_⟩
  · intro h0
    subst h0
    simp only [deserialize_CstVal, validate_header_some, DeResult.bind,
      get_size_of_next_enc c (enc4 0 ++ (enc4 v ++ rest)) (some bsw) hc,
      if_neg hc0,
      deserialize_i32_enc 0 (enc4 v ++ rest) (some bsw) (by norm_num)]
    rw [show toI32 0 = (0 : Int) by simp [toI32]]
    rw [if_pos rfl, if_neg hc1, deserialize_i32_enc v rest (some bsw) hv]
  · intro h0
    subst h0
    simp only [deserialize_CstVal, validate_header_some, DeResult.bind,
      get_size_of_next_enc c (enc4 1 ++ (enc4 v ++ rest)) (some bsw) hc,
      if_neg hc0,
      deserialize_i32_enc 1 (enc4 v ++ rest) (some bsw) (by norm_num)]
    rw [show toI32 1 = (1 : Int) by simp [toI32]]
    rw [if_neg (by norm_num), if_pos rfl, if_neg hc1,
      deserialize_i32_enc v rest (some bsw) hv]
  · intro h0
    subst h0
    simp only [deserialize_CstVal, validate_header_some, DeResult.bind,
      get_size_of_next_enc c (enc4 3 ++ (enc4 v ++ rest)) (some bsw) hc,
      if_neg hc0,
      deserialize_i32_enc 3 (enc4 v ++ rest) (some bsw) (by norm_num)]
    rw [show toI32 3 = (3 : Int) by simp [toI32]]
    rw [if_neg (by norm_num), if_neg (by norm_num), if_pos rfl, if_neg hc1,
      deserialize_f32_enc v rest (some bsw) hv]
  · intro h0
    subst h0
    simp only [deserialize_CstVal, validate_header_some, DeResult.bind,
      get_size_of_next_enc c (enc4 7 ++ (enc4 v ++ rest)) (some bsw) hc,
      if_neg hc0,
      deserialize_i32_enc 7 (enc4 v ++ rest) (some bsw) (by norm_num)]
    rw [show toI32 7 = (7 : Int) by simp [toI32]]
    rw [if_neg (by norm_num), if_neg (by norm_num), if_neg (by norm_num),
      if_neg (by norm_num), if_pos rfl, if_neg hc1,
      deserialize_i32_enc v rest (some bsw) hv]
  · intro h0 h1 h3 h5 h7
    have hdis : toI32 t = (t : Int) := by
      unfold toI32
      rw [if_pos ht]
    simp only [deserialize_CstVal, validate_header_some, DeResult.bind,
      get_size_of_next_enc c (enc4 t ++ (enc4 v ++ rest)) (some bsw) hc,
      if_neg hc0, deserialize_i32_enc t (enc4 v ++ rest) (some bsw) (by omega),
      hdis]
    rw [if_neg (by exact_mod_cast h0), if_neg (by exact_mod_cast h1),
      if_neg (by exact_mod_cast h3), if_neg (by exact_mod_cast h5),
      if_neg (by exact_mod_cast h7), if_neg hc1,
      deserialize_i32_enc v rest (some bsw) hv]
  · intro s rest2 hs hsl
    simp only [deserialize_CstVal, validate_header_some, DeResult.bind,
      get_size_of_next_enc c (enc4 5 ++ (enc4 (s.length + 1) ++ (s ++ [0] ++ rest2)))
        (some bsw) hc,
      if_neg hc0,
      deserialize_i32_enc 5 (enc4 (s.length + 1) ++ (s ++ [0] ++ rest2))
        (some bsw) (by norm_num)]
    rw [show toI32 5 = (5 : Int) by simp [toI32]]
    rw [if_neg (by norm_num), if_neg (by norm_num), if_neg (by norm_num),
      if_pos rfl, if_neg hc1, parse_str_ok bsw s rest2 hs hsl]

/-- C4 witness: a count-2 sequence with tag 5 and the string "eng"
decodes to `Str("eng")`, the mixed-mode payload rule. -/
theorem c4_cstval_count_then_tag_then_payload_witness :
    deserialize_CstVal
      ⟨enc4 2 ++ (enc4 5 ++ (enc4 ((ascii "eng").length + 1) ++
        (ascii "eng" ++ [0] ++ []))), some false⟩ =
      .ok (.StrV (ascii "eng")) ⟨[], some false⟩ :=
  (c4_cstval_count_then_tag_then_payload false 2 5 0 []
    (by decide) (by decide) (by decide) (by decide)).2.2.2.2.2
    (ascii "eng") [] (by decide) (by decide)

/-- C6, confirmed. A length-prefixed string read in a validated state
reads the 4-byte little-endian count `L` and then examines exactly the
next `L` bytes: a nonzero last byte fails with `WrongLength L`
(WrongStringTermination), invalid UTF-8 in the first `L - 1` bytes
fails with `NotUtf8` (NonUtf8Payload), and otherwise those `L - 1`
bytes are returned with exactly `4 + L` bytes consumed. -/
theorem c6_string_read_contract (bsw : Bool) (L : Nat) (s rest : List Nat)
    (hL : 1 ≤ L) (hlen : s.length = L) (hc : L < 2 ^ 32) :
    (s.getD (L - 1) 0 ≠ 0 →
      parse_str ⟨enc4 L ++ (s ++ rest), some bsw⟩ = .err (.WrongLength L)) ∧
    (s.getD (L - 1) 0 = 0 → utf8Valid (s.take (L - 1)) = true →
      parse_str ⟨enc4 L ++ (s ++ rest), some bsw⟩ =
        .ok (s.take (L - 1)) ⟨rest, some bsw⟩) ∧
    (s.getD (L - 1) 0 = 0 → utf8Valid (s.take (L - 1)) = false →
      parse_str ⟨enc4 L ++ (s ++ rest), some bsw⟩ = .err .NotUtf8) :=
  parse_str_spec bsw L s rest hL hlen hc

/-- C6 witness: the field `"eng\0"` with count 4 decodes to `"eng"`,
consuming all 8 bytes. -/
theorem c6_string_read_contract_witness :
    parse_str ⟨enc4 4 ++ ((ascii "eng" ++ [0]) ++ []), some false⟩ =
      .ok ((ascii "eng" ++ [0]).take (4 - 1)) ⟨[], some false⟩ :=
  (c6_string_read_contract false 4 (ascii "eng" ++ [0]) []
    (by decide) (by decide) (by decide)).2.1 (by decide) (by decide)
